import Mathlib

/-!
Verification development for the Spark parking recommender
(`src/SparkParkingAPI/main.py`).

The Python source is shallowly embedded:
* Python heterogeneous values (`None` / `str` / `int` / `float`) become the
  inductive type `PyVal`; a Python `float` is either NaN or an exact value
  modelled as a rational (`PFloat`).
* the field normalizers `yn_to_int`, `discount_to_int`, `rate_to_float`,
  the hour parser `parse_hour_from_str` and the availability evaluator
  `compute_open_now` are translated function by function;
* the `/recommend` pipeline (eligibility filtering, feature-row assembly,
  batch scoring, stable descending sort, Python slice truncation) is
  translated with records as association lists, the opaque joblib model as
  an injected scorer, and the float-valued distance function as an injected
  parameter (its exact float values are irrelevant to the pipeline claims;
  the haversine formula itself is modelled over the reals below);
* `haversine_km` is modelled over the real numbers, with `math.sin`,
  `math.cos`, `math.asin`, `math.sqrt` as their exact counterparts.
-/

/-! ### Characters and strings (Python `str` operations) -/

/-- Python `str.strip()` whitespace set: space, tab, newline, CR, FF, VT. -/
def pyIsSpace (c : Char) : Bool :=
  c = ' ' || c = '\t' || c = '\n' || c = '\x0d' || c = '\x0c' || c = '\x0b'

/-- Python `str.strip()` on the character list: drop leading and trailing
whitespace. -/
def pyStripList (cs : List Char) : List Char :=
  ((cs.dropWhile pyIsSpace).reverse.dropWhile pyIsSpace).reverse

/-- Python `str.strip()`. -/
def pyStrip (s : String) : String := ⟨pyStripList s.data⟩

/-- Python `str.upper()` (ASCII fragment, matching the data in play). -/
def strUpper (s : String) : String := ⟨s.data.map Char.toUpper⟩

/-- Python `str.startswith(pat)`. -/
def strStartsWith (s pat : String) : Bool := pat.data.isPrefixOf s.data

/-- Python `pat in s` substring containment. -/
def strContains (s pat : String) : Bool :=
  s.data.tails.any (fun t => pat.data.isPrefixOf t)

/-! ### Python values -/

/-- A Python `float`: NaN, or an exact numeric value modelled as a rational. -/
inductive PFloat where
  | nan : PFloat
  | val (q : ℚ) : PFloat
deriving DecidableEq, Repr

/-- A heterogeneous Python value, as found in the spreadsheet-derived
records: `None`, a string, an `int`, or a `float`. -/
inductive PyVal where
  | vNone : PyVal
  | vStr (s : String) : PyVal
  | vInt (n : ℤ) : PyVal
  | vFloat (f : PFloat) : PyVal
deriving DecidableEq, Repr

/-- Python truthiness `bool(x)` of a `float`: `False` only for `0.0`;
NaN is truthy. -/
def pyTruthyFloat : PFloat → Bool
  | .nan => true
  | .val q => q ≠ 0

/-! ### Field normalizers (`main.py` lines 52–87) -/

/-- `yn_to_int` (main.py:52): convert YES/NO-like values to 1/0.
A string is stripped and upper-cased; leading `Y` gives 1, leading `N`
gives 0; any other string falls through past the numeric branch to 0.
A numeric value gives `int(bool(val))`; anything else gives 0. -/
def yn_to_int : PyVal → ℤ
  | .vStr s =>
      let t := strUpper (pyStrip s)
      if strStartsWith t "Y" then 1
      else if strStartsWith t "N" then 0
      else 0
  | .vInt n => if n = 0 then 0 else 1
  | .vFloat f => if pyTruthyFloat f then 1 else 0
  | .vNone => 0

/-- `discount_to_int` (main.py:65): PWD/SC discount text to 1/0 via
case-insensitive scan for EXEMPT / DISCOUNT / YES. -/
def discount_to_int : PyVal → ℤ
  | .vStr s =>
      let t := strUpper (pyStrip s)
      if strContains t "EXEMPT" || strContains t "DISCOUNT" || strContains t "YES" then 1
      else 0
  | _ => 0

/-- Digit run to a natural number. -/
def digitsToNat (ds : List Char) : ℕ :=
  ds.foldl (fun a c => a * 10 + (c.toNat - 48)) 0

/-- Value of the first regex match of `(\d+(\.\d+)?)` starting at the head
of `cs` (the head is known to be a digit): a greedy digit run, then
optionally a dot followed by a nonempty greedy digit run. -/
def readNum (cs : List Char) : ℚ :=
  let ds := cs.takeWhile Char.isDigit
  let rest := cs.dropWhile Char.isDigit
  let ip : ℚ := digitsToNat ds
  match rest with
  | '.' :: rest2 =>
      let fs := rest2.takeWhile Char.isDigit
      if fs.isEmpty then ip
      else ip + (digitsToNat fs : ℚ) / ((10 : ℚ) ^ fs.length)
  | _ => ip

/-- `re.search` for `(\d+(\.\d+)?)`: scan left to right for the first digit
and read a number there; `none` when the string has no digit. -/
def extractNum : List Char → Option ℚ
  | [] => none
  | c :: rest => if c.isDigit then some (readNum (c :: rest)) else extractNum rest

/-- `val.replace(",", "")`. -/
def stripCommas (s : String) : List Char := s.data.filter (fun c => c ≠ ',')

/-- `rate_to_float` (main.py:74): a numeric value is returned as-is unless
NaN (then 0.0); a string yields the first `(\d+(\.\d+)?)` match after
removing commas, else 0.0; anything else gives 0.0. -/
def rate_to_float : PyVal → ℚ
  | .vInt n => (n : ℚ)
  | .vFloat .nan => 0
  | .vFloat (.val q) => q
  | .vStr s =>
      match extractNum (stripCommas s) with
      | some q => q
      | none => 0
  | .vNone => 0

/-! ### Hour parsing (`main.py` lines 90–110) -/

/-- Modelled from the spec: the `pd.to_datetime(s, errors="coerce").hour`
call is external library code; §4.2 describes it as "a permissive
time-string parse (accepting forms like '6:00 AM', '7:00PM', '18:30')"
returning the parsed hour, with unparsable input giving none.  The model
accepts `H:MM` (24-hour, `H ≤ 23`, `MM ≤ 59`) and `H:MM` followed by an
optional space and a case-insensitive AM/PM marker (`1 ≤ H ≤ 12`). -/
def pdToDatetimeHour (s : String) : Option ℕ :=
  let cs := s.data
  let hd := cs.takeWhile Char.isDigit
  let rest := cs.dropWhile Char.isDigit
  if hd.isEmpty || 2 < hd.length then none
  else
    match rest with
    | ':' :: rest2 =>
        let md := rest2.takeWhile Char.isDigit
        let rest3 := rest2.dropWhile Char.isDigit
        if md.length ≠ 2 then none
        else
          let h := digitsToNat hd
          let m := digitsToNat md
          if 59 < m then none
          else
            match (rest3.dropWhile (fun c => c = ' ')).map Char.toUpper with
            | [] => if h ≤ 23 then some h else none
            | ['A', 'M'] => if 1 ≤ h ∧ h ≤ 12 then some (h % 12) else none
            | ['P', 'M'] => if 1 ≤ h ∧ h ≤ 12 then some (h % 12 + 12) else none
            | _ => none
    | _ => none

/-- `parse_hour_from_str` (main.py:90): non-strings give `none`; the string
is stripped; empty or `N/A` gives `none`; a string containing `24/7` gives
hour 0 (treated specially by the caller); otherwise the permissive time
parse is attempted. -/
def parse_hour_from_str : PyVal → Option ℕ
  | .vStr s0 =>
      let s := pyStrip s0
      if s.data.isEmpty then none
      else if strUpper s = "N/A" then none
      else if strContains s "24/7" then some 0
      else pdToDatetimeHour s
  | _ => none

/-! ### Availability evaluator (`main.py` lines 113–140) -/

/-- `"24/7" in opening.upper()` guarded by `isinstance(opening, str)`. -/
def is24_7 : PyVal → Bool
  | .vStr s => strContains (strUpper s) "24/7"
  | _ => false

/-- `compute_open_now` (main.py:113): 1 when either raw field is a string
containing `24/7`; 1 when either hour fails to parse; 1 when the parsed
hours coincide; otherwise the same-day or overnight window test. -/
def compute_open_now (opening closing : PyVal) (hour : ℤ) : ℤ :=
  if is24_7 opening then 1
  else if is24_7 closing then 1
  else
    match parse_hour_from_str opening, parse_hour_from_str closing with
    | some oh, some ch =>
        if oh = ch then 1
        else if oh < ch then
          if (oh : ℤ) ≤ hour ∧ hour < (ch : ℤ) then 1 else 0
        else
          if (oh : ℤ) ≤ hour ∨ hour < (ch : ℤ) then 1 else 0
    | _, _ => 1

/-- The availability policy exactly as the spec words it (§4.3, claim C1):
step 1 the case-insensitive `24/7` test on either raw text, step 2 default
open on parse failure, step 3 open on equal hours, step 4 the same-day
window, step 5 the overnight window. -/
def is_open_now_spec (opening closing : String) (hour : ℤ) : Bool :=
  if strContains (strUpper opening) "24/7" || strContains (strUpper closing) "24/7" then
    true
  else
    match parse_hour_from_str (.vStr opening), parse_hour_from_str (.vStr closing) with
    | some oh, some ch =>
        if oh = ch then true
        else if oh < ch then decide ((oh : ℤ) ≤ hour ∧ hour < (ch : ℤ))
        else decide ((oh : ℤ) ≤ hour ∨ hour < (ch : ℤ))
    | _, _ => true

/-! ### Haversine distance (`main.py` lines 41–49), over the reals

Python `math` floats are modelled as exact real arithmetic; `radians`,
`sin`, `cos`, `asin`, `sqrt` become their real counterparts. -/

/-- `math.radians`. -/
noncomputable def deg2rad (x : ℝ) : ℝ := x * (Real.pi / 180)

/-- The intermediate `a` of `haversine_km`:
`sin(dlat/2)**2 + cos(lat1)*cos(lat2)*sin(dlon/2)**2` after conversion to
radians. -/
noncomputable def hav_a (lat1 lon1 lat2 lon2 : ℝ) : ℝ :=
  Real.sin ((deg2rad lat2 - deg2rad lat1) / 2) ^ 2 +
    Real.cos (deg2rad lat1) * Real.cos (deg2rad lat2) *
      Real.sin ((deg2rad lon2 - deg2rad lon1) / 2) ^ 2

/-- `haversine_km` (main.py:41): `R * c` with `R = 6371.0` and
`c = 2 * asin(sqrt(a))`. -/
noncomputable def haversine_km (lat1 lon1 lat2 lon2 : ℝ) : ℝ :=
  6371.0 * (2 * Real.arcsin (Real.sqrt (hav_a lat1 lon1 lat2 lon2)))

/-! ### Records and the `/recommend` pipeline (`main.py` lines 282–380) -/

/-- A spreadsheet-derived record: a Python dict as an association list. -/
abbrev Dict := List (String × PyVal)

/-- Python `p.get(k, dflt)`. -/
def pyGet (p : Dict) (k : String) (dflt : PyVal) : PyVal :=
  match List.find? (fun kv => kv.1 = k) p with
  | some kv => kv.2
  | none => dflt

/-- Python `p[k]` as an option (a missing key raises `KeyError`, which the
loop body catches). -/
def pyIndex (p : Dict) (k : String) : Option PyVal :=
  (List.find? (fun kv => kv.1 = k) p).map (fun kv => kv.2)

/-- Modelled from the spec: the builtin `float(...)` conversion used in the
defensive coordinate re-check (§4.5: "skip any record whose stored
coordinates are not parseable as finite numbers").  Numbers convert to
themselves; a string converts when, after stripping, it is an optionally
signed decimal literal; `None` and other strings raise (give `none`). -/
def pyFloatOfString (s : String) : Option ℚ :=
  let cs := pyStripList s.data
  let body : List Char → Option ℚ := fun ds =>
    let ip := ds.takeWhile Char.isDigit
    let rest := ds.dropWhile Char.isDigit
    match rest with
    | [] => if ip.isEmpty then none else some (digitsToNat ip)
    | '.' :: rest2 =>
        let fs := rest2.takeWhile Char.isDigit
        let rest3 := rest2.dropWhile Char.isDigit
        if rest3.isEmpty then
          if ip.isEmpty ∧ fs.isEmpty then none
          else some ((digitsToNat ip : ℚ) + (digitsToNat fs : ℚ) / ((10 : ℚ) ^ fs.length))
        else none
    | _ => none
  match cs with
  | '-' :: ds => (body ds).map (fun q => -q)
  | '+' :: ds => body ds
  | ds => body ds

/-- Python `float(v)` on a heterogeneous value, `none` when it raises. -/
def floatOfVal : PyVal → Option PFloat
  | .vInt n => some (.val (n : ℚ))
  | .vFloat f => some f
  | .vStr s => (pyFloatOfString s).map .val
  | .vNone => none

/-- The `try: lat = float(p["lat"]); lng = float(p["lng"]) except: continue`
block (main.py:300–305): the converted coordinate pair, or `none` when the
record is skipped. -/
def coordsOf (p : Dict) : Option (PFloat × PFloat) :=
  match pyIndex p "lat" with
  | none => none
  | some lv =>
    match floatOfVal lv with
    | none => none
    | some la =>
      match pyIndex p "lng" with
      | none => none
      | some gv =>
        match floatOfVal gv with
        | none => none
        | some ln => some (la, ln)

/-- `p.get("opening", None)` (main.py:308). -/
def rawOpening (p : Dict) : PyVal := pyGet p "opening" .vNone

/-- `p.get("closing", None)` (main.py:309). -/
def rawClosing (p : Dict) : PyVal := pyGet p "closing" .vNone

/-- `p.get("cctvs_raw", p.get("CCTVS", ""))` (main.py:312). -/
def rawCctvs (p : Dict) : PyVal := pyGet p "cctvs_raw" (pyGet p "CCTVS" (.vStr ""))

/-- `p.get("guards_raw", p.get("GUARDS", ""))` (main.py:313). -/
def rawGuards (p : Dict) : PyVal := pyGet p "guards_raw" (pyGet p "GUARDS" (.vStr ""))

/-- `p.get("initial_rate_raw", p.get("INITIAL RATE", ""))` (main.py:314). -/
def rawRate (p : Dict) : PyVal :=
  pyGet p "initial_rate_raw" (pyGet p "INITIAL RATE" (.vStr ""))

/-- `p.get("discount_raw", p.get("PWD/SC DISCOUNT", ""))` (main.py:315). -/
def rawDiscount (p : Dict) : PyVal :=
  pyGet p "discount_raw" (pyGet p "PWD/SC DISCOUNT" (.vStr ""))

/-- `p.get("street_raw", p.get("STREET PARKING", ""))` (main.py:316). -/
def rawStreet (p : Dict) : PyVal :=
  pyGet p "street_raw" (pyGet p "STREET PARKING" (.vStr ""))

/-- A recommendation request (`ParkingRequest`): user coordinates (float
values abstracted as rationals) and the hour of day. -/
structure RecRequest where
  user_lat : ℚ
  user_lng : ℚ
  time_of_day : ℤ
deriving DecidableEq, Repr

/-- The type of the injected distance function standing for the float-level
`haversine_km` inside the pipeline (arguments: user lat, user lng, record
lat, record lng). -/
abbrev DistFn := PFloat → PFloat → PFloat → PFloat → ℚ

/-- The feature row built at main.py:319–327, in the exact training order
`[distance_km, open_now, cctvs, guards, initial_rate, pwd_discount,
street_parking]`. -/
def featureRow (dist : DistFn) (req : RecRequest) (la ln : PFloat) (p : Dict) : List ℚ :=
  [ dist (.val req.user_lat) (.val req.user_lng) la ln,
    ((compute_open_now (rawOpening p) (rawClosing p) req.time_of_day : ℤ) : ℚ),
    ((yn_to_int (rawCctvs p) : ℤ) : ℚ),
    ((yn_to_int (rawGuards p) : ℤ) : ℚ),
    rate_to_float (rawRate p),
    ((discount_to_int (rawDiscount p) : ℤ) : ℚ),
    ((yn_to_int (rawStreet p) : ℤ) : ℚ) ]

/-- The display metadata stored per kept record (main.py:332–350). -/
structure RecInfo where
  index : ℕ
  name : PyVal
  details : PyVal
  address : PyVal
  link : PyVal
  city : PyVal
  lat : PFloat
  lng : PFloat
  distance_km : ℚ
  open_now : Bool
  opening : PyVal
  closing : PyVal
  guards : ℤ
  cctvs : ℤ
  initial_rate : ℚ
  pwd_discount : ℤ
  street_parking : ℤ
deriving DecidableEq, Repr

/-- The `parking_info.append({...})` record (main.py:332–350). -/
def infoOf (dist : DistFn) (req : RecRequest) (idx : ℕ) (la ln : PFloat) (p : Dict) :
    RecInfo where
  index := idx
  name := pyGet p "name" .vNone
  details := pyGet p "details" .vNone
  address := pyGet p "address" .vNone
  link := pyGet p "link" .vNone
  city := pyGet p "city" .vNone
  lat := la
  lng := ln
  distance_km := dist (.val req.user_lat) (.val req.user_lng) la ln
  open_now := compute_open_now (rawOpening p) (rawClosing p) req.time_of_day ≠ 0
  opening := rawOpening p
  closing := rawClosing p
  guards := yn_to_int (rawGuards p)
  cctvs := yn_to_int (rawCctvs p)
  initial_rate := rate_to_float (rawRate p)
  pwd_discount := discount_to_int (rawDiscount p)
  street_parking := yn_to_int (rawStreet p)

/-- The `for idx, p in enumerate(PARKINGS)` loop body (main.py:299–350):
records whose coordinates fail the defensive re-check are skipped; kept
records yield their feature row and display metadata. -/
def buildRowsAux (dist : DistFn) (req : RecRequest) :
    ℕ → List Dict → List (List ℚ × RecInfo)
  | _, [] => []
  | idx, p :: rest =>
    match coordsOf p with
    | none => buildRowsAux dist req (idx + 1) rest
    | some (la, ln) =>
        (featureRow dist req la ln p, infoOf dist req idx la ln p)
          :: buildRowsAux dist req (idx + 1) rest

/-- The parallel lists `feature_rows` and `parking_info`, zipped. -/
def eligRows (dist : DistFn) (req : RecRequest) (ps : List Dict) :
    List (List ℚ × RecInfo) :=
  buildRowsAux dist req 0 ps

/-- Modelled from the spec: the opaque joblib model (§6): "an opaque
mapping from a batch of 7-dimensional numeric feature vectors to a batch
of numeric scores, same length, order-preserving", whose invocation may
raise.  A raising invocation is modelled by `raises = some message`. -/
structure MLModel where
  score : List ℚ → ℚ
  raises : Option String

/-- `model.predict(X)` (main.py:358), which either raises or returns one
score per feature row, order-preserving. -/
def predictModel (m : MLModel) (x : List (List ℚ)) : Except String (List ℚ) :=
  match m.raises with
  | some e => .error e
  | none => .ok (x.map m.score)

/-- A scored result: display metadata plus the model score (main.py:364–367). -/
structure ScoredInfo where
  info : RecInfo
  score : ℚ
deriving DecidableEq, Repr

/-- One step of the stable descending sort: insert `x` before the first
element whose score is not above `x.score`.  Python's
`results.sort(key=lambda r: r["score"], reverse=True)` is a stable sort,
so equal scores keep their original relative order; insertion from the
head reproduces exactly that ordering. -/
def insertDesc (x : ScoredInfo) : List ScoredInfo → List ScoredInfo
  | [] => [x]
  | y :: ys => if x.score < y.score then y :: insertDesc x ys else x :: y :: ys

/-- Stable sort by score descending (main.py:370). -/
def sortDesc : List ScoredInfo → List ScoredInfo
  | [] => []
  | x :: xs => insertDesc x (sortDesc xs)

/-- Python list slice `l[:k]` with a possibly negative `k` (main.py:371):
a nonnegative `k` keeps the first `k` elements; a negative `k` drops the
last `|k|` elements. -/
def pySliceTo (l : List ScoredInfo) (k : ℤ) : List ScoredInfo :=
  if 0 ≤ k then l.take k.toNat else l.take ((l.length : ℤ) + k).toNat

/-- The `/recommend` response body (main.py:373–380). -/
structure RecResponse where
  user_lat : ℚ
  user_lng : ℚ
  time_of_day : ℤ
  recommendations : List ScoredInfo
deriving DecidableEq, Repr

/-- `recommend` (main.py:282–380).  `HTTPException(500, detail)` becomes an
`Except` error carrying the status code and detail; the model argument is
`none` when loading failed at startup. -/
def recommend (mo : Option MLModel) (ps : List Dict) (dist : DistFn)
    (req : RecRequest) (top_k : ℤ) : Except (ℕ × String) RecResponse :=
  match mo with
  | none => .error (500, "Model not loaded.")
  | some m =>
    if ps.isEmpty then .error (500, "No parking data loaded from Excel.")
    else
      let rows := eligRows dist req ps
      if rows.isEmpty then .error (500, "No valid parking rows to score.")
      else
        match predictModel m (rows.map (fun r => r.1)) with
        | .error e => .error (500, "Model prediction failed: " ++ e)
        | .ok scores =>
            let results :=
              ((rows.map (fun r => r.2)).zip scores).map
                (fun pr => ScoredInfo.mk pr.1 pr.2)
            .ok { user_lat := req.user_lat, user_lng := req.user_lng,
                  time_of_day := req.time_of_day,
                  recommendations := pySliceTo (sortDesc results) top_k }

/-- The fully sorted scored list (`results` after the sort, before the
slice) for a non-raising model. -/
def sortedScored (m : MLModel) (ps : List Dict) (dist : DistFn)
    (req : RecRequest) : List ScoredInfo :=
  sortDesc
    ((((eligRows dist req ps).map (fun r => r.2)).zip
        (((eligRows dist req ps).map (fun r => r.1)).map m.score)).map
      (fun pr => ScoredInfo.mk pr.1 pr.2))

/-- The ranking invariant of claim C2: strictly higher score first, and
original catalog order (the stored `index`) among equal scores. -/
def rankedBefore (a b : ScoredInfo) : Prop :=
  b.score < a.score ∨ (b.score = a.score ∧ a.info.index < b.info.index)

/-! ### Concrete fixtures used by the closed-instance theorems -/

/-- A concrete injected distance function (everything at distance 0). -/
def dist0 : DistFn := fun _ _ _ _ => 0

/-- A concrete request: origin coordinates, noon. -/
def req0 : RecRequest := { user_lat := 0, user_lng := 0, time_of_day := 12 }

/-- A concrete non-raising model scoring every row 0. -/
def m0 : MLModel := { score := fun _ => 0, raises := none }

/-- A concrete model scoring by negated first feature (distance): closer is
better; used to exercise the sort. -/
def mDistNeg : MLModel := { score := fun r => -(r.headI), raises := none }

/-- A concrete model whose prediction call raises with message `boom`. -/
def mRaise : MLModel := { score := fun _ => 0, raises := some "boom" }

/-- A minimal facility record: coordinates only. -/
def p0 : Dict := [("lat", .vInt 0), ("lng", .vInt 0)]

/-- A facility record with coordinates and some amenity text. -/
def p1 : Dict :=
  [("lat", .vInt 1), ("lng", .vInt 1), ("cctvs_raw", .vStr "Yes"),
   ("opening", .vStr "7:00 AM"), ("closing", .vStr "10:00 PM")]

/-- A third facility record. -/
def p2 : Dict := [("lat", .vInt 2), ("lng", .vInt 2), ("initial_rate_raw", .vStr "PHP 20.00")]

/-- A concrete 3-facility catalog. -/
def parkings0 : List Dict := [p0, p1, p2]

/-- A facility record whose CCTV cell is a float NaN, the way pandas
represents a blank spreadsheet cell. -/
def pNaN : Dict := [("lat", .vInt 0), ("lng", .vInt 0), ("cctvs_raw", .vFloat .nan)]

/-! ### Helper lemmas: the stable descending sort -/

theorem mem_insertDesc (z x : ScoredInfo) (l : List ScoredInfo) :
    z ∈ insertDesc x l ↔ z = x ∨ z ∈ l := by
  induction l with
  | nil => simp [insertDesc]
  | cons y ys ih =>
      by_cases h : x.score < y.score
      · simp only [insertDesc, if_pos h, List.mem_cons, ih]
        tauto
      · simp only [insertDesc, if_neg h, List.mem_cons]

theorem length_insertDesc (x : ScoredInfo) (l : List ScoredInfo) :
    (insertDesc x l).length = l.length + 1 := by
  induction l with
  | nil => rfl
  | cons y ys ih =>
      by_cases h : x.score < y.score
      · simp [insertDesc, h, ih]
      · simp [insertDesc, h]

theorem length_sortDesc (l : List ScoredInfo) : (sortDesc l).length = l.length := by
  induction l with
  | nil => rfl
  | cons x xs ih => rw [sortDesc, length_insertDesc, ih, List.length_cons]

theorem mem_sortDesc (z : ScoredInfo) (l : List ScoredInfo) :
    z ∈ sortDesc l ↔ z ∈ l := by
  induction l with
  | nil => simp [sortDesc]
  | cons x xs ih => rw [sortDesc, mem_insertDesc, ih, List.mem_cons]

theorem pairwise_insertDesc (x : ScoredInfo) (l : List ScoredInfo)
    (hl : l.Pairwise rankedBefore)
    (hx : ∀ y ∈ l, x.info.index < y.info.index) :
    (insertDesc x l).Pairwise rankedBefore := by
  induction l with
  | nil => simp [insertDesc]
  | cons y ys ih =>
      rcases List.pairwise_cons.mp hl with ⟨hy, hys⟩
      by_cases h : x.score < y.score
      · rw [insertDesc, if_pos h]
        refine List.pairwise_cons.mpr
          ⟨?_, ih hys (fun z hz => hx z (List.mem_cons_of_mem y hz))⟩
        intro z hz
        rcases (mem_insertDesc z x ys).mp hz with rfl | hzys
        · exact Or.inl h
        · exact hy z hzys
      · rw [insertDesc, if_neg h]
        refine List.pairwise_cons.mpr ⟨?_, hl⟩
        intro z hz
        rcases List.mem_cons.mp hz with rfl | hzys
        · rcases eq_or_lt_of_le (not_lt.mp h) with heq | hlt
          · exact Or.inr ⟨heq, hx z (List.mem_cons_self z ys)⟩
          · exact Or.inl hlt
        · rcases hy z hzys with hlt | ⟨heq, _⟩
          · exact Or.inl (lt_of_lt_of_le hlt (not_lt.mp h))
          · rcases eq_or_lt_of_le (le_trans (le_of_eq heq) (not_lt.mp h)) with heq2 | hlt2
            · exact Or.inr ⟨heq2, hx z (List.mem_cons_of_mem y hzys)⟩
            · exact Or.inl hlt2

theorem pairwise_sortDesc (l : List ScoredInfo)
    (h : l.Pairwise (fun a b => a.info.index < b.info.index)) :
    (sortDesc l).Pairwise rankedBefore := by
  induction l with
  | nil => simp [sortDesc]
  | cons x xs ih =>
      rcases List.pairwise_cons.mp h with ⟨hx, hxs⟩
      rw [sortDesc]
      exact pairwise_insertDesc x (sortDesc xs) (ih hxs)
        (fun z hz => hx z ((mem_sortDesc z xs).mp hz))

theorem pairwise_zip_left {α β : Type _} {P : α → α → Prop} :
    ∀ (l : List α) (s : List β), l.Pairwise P →
      (l.zip s).Pairwise (fun a b => P a.1 b.1)
  | [], _, _ => by simp
  | _ :: _, [], _ => by simp
  | a :: l, b :: s, h => by
      rcases List.pairwise_cons.mp h with ⟨ha, hl⟩
      refine List.pairwise_cons.mpr ⟨?_, pairwise_zip_left l s hl⟩
      intro z hz
      obtain ⟨z1, z2⟩ := z
      exact ha z1 (List.of_mem_zip hz).1

/-! ### Helper lemmas: the feature-building loop -/

theorem buildRowsAux_index_ge (dist : DistFn) (req : RecRequest) :
    ∀ (ps : List Dict) (idx : ℕ) (r : List ℚ × RecInfo),
      r ∈ buildRowsAux dist req idx ps → idx ≤ r.2.index := by
  intro ps
  induction ps with
  | nil => intro idx r hr; simp [buildRowsAux] at hr
  | cons p rest ih =>
      intro idx r hr
      cases hc : coordsOf p with
      | none =>
          rw [buildRowsAux, hc] at hr
          exact le_trans (Nat.le_succ idx) (ih (idx + 1) r hr)
      | some c =>
          obtain ⟨la, ln⟩ := c
          rw [buildRowsAux, hc] at hr
          rcases List.mem_cons.mp hr with rfl | hr2
          · simp [infoOf]
          · exact le_trans (Nat.le_succ idx) (ih (idx + 1) r hr2)

theorem buildRowsAux_pairwise (dist : DistFn) (req : RecRequest) :
    ∀ (ps : List Dict) (idx : ℕ),
      (buildRowsAux dist req idx ps).Pairwise (fun a b => a.2.index < b.2.index) := by
  intro ps
  induction ps with
  | nil => intro idx; simp [buildRowsAux]
  | cons p rest ih =>
      intro idx
      cases hc : coordsOf p with
      | none => rw [buildRowsAux, hc]; exact ih (idx + 1)
      | some c =>
          obtain ⟨la, ln⟩ := c
          rw [buildRowsAux, hc]
          refine List.pairwise_cons.mpr ⟨?_, ih (idx + 1)⟩
          intro z hz
          have hge := buildRowsAux_index_ge dist req rest (idx + 1) z hz
          simp only [infoOf]
          omega

theorem buildRowsAux_shape (dist : DistFn) (req : RecRequest) :
    ∀ (ps : List Dict) (idx : ℕ) (r : List ℚ × RecInfo),
      r ∈ buildRowsAux dist req idx ps →
      ∃ p, p ∈ ps ∧ ∃ la ln, coordsOf p = some (la, ln) ∧
        r.1 = featureRow dist req la ln p := by
  intro ps
  induction ps with
  | nil => intro idx r hr; simp [buildRowsAux] at hr
  | cons p rest ih =>
      intro idx r hr
      cases hc : coordsOf p with
      | none =>
          rw [buildRowsAux, hc] at hr
          obtain ⟨q, hq, h2⟩ := ih (idx + 1) r hr
          exact ⟨q, List.mem_cons_of_mem p hq, h2⟩
      | some c =>
          obtain ⟨la, ln⟩ := c
          rw [buildRowsAux, hc] at hr
          rcases List.mem_cons.mp hr with rfl | hr2
          · exact ⟨p, List.mem_cons_self p rest, la, ln, hc, rfl⟩
          · obtain ⟨q, hq, h2⟩ := ih (idx + 1) r hr2
            exact ⟨q, List.mem_cons_of_mem p hq, h2⟩

theorem buildRowsAux_length_congr (dist : DistFn) (req : RecRequest)
    {ps qs : List Dict}
    (h : List.Forall₂ (fun p q => coordsOf p = coordsOf q) ps qs) :
    ∀ (idx jdx : ℕ),
      (buildRowsAux dist req idx ps).length = (buildRowsAux dist req jdx qs).length := by
  induction h with
  | nil => intro idx jdx; rfl
  | @cons p q ps2 qs2 hpq htail ih =>
      intro idx jdx
      cases hc : coordsOf p with
      | none =>
          have hq : coordsOf q = none := by rw [← hpq, hc]
          rw [buildRowsAux, hc, buildRowsAux, hq]
          exact ih (idx + 1) (jdx + 1)
      | some c =>
          obtain ⟨la, ln⟩ := c
          have hq : coordsOf q = some (la, ln) := by rw [← hpq, hc]
          rw [buildRowsAux, hc, buildRowsAux, hq]
          simp only [List.length_cons]
          exact congrArg (· + 1) (ih (idx + 1) (jdx + 1))

/-! ### Helper lemmas: computing `recommend` in each regime -/

theorem recommend_model_none (ps : List Dict) (dist : DistFn) (req : RecRequest)
    (k : ℤ) : recommend none ps dist req k = .error (500, "Model not loaded.") := rfl

theorem recommend_no_data (m : MLModel) (dist : DistFn) (req : RecRequest) (k : ℤ) :
    recommend (some m) [] dist req k =
      .error (500, "No parking data loaded from Excel.") := rfl

theorem recommend_no_rows (m : MLModel) (ps : List Dict) (dist : DistFn)
    (req : RecRequest) (k : ℤ) (hps : ps ≠ [])
    (hrows : eligRows dist req ps = []) :
    recommend (some m) ps dist req k =
      .error (500, "No valid parking rows to score.") := by
  have h1 : ps.isEmpty = false := by simp [List.isEmpty_iff, hps]
  have h2 : (eligRows dist req ps).isEmpty = true := by simp [List.isEmpty_iff, hrows]
  simp only [recommend, h1, h2, Bool.false_eq_true, if_false, if_true]

theorem recommend_raised (m : MLModel) (ps : List Dict) (dist : DistFn)
    (req : RecRequest) (k : ℤ) (e : String) (hm : m.raises = some e)
    (hps : ps ≠ []) (hrows : eligRows dist req ps ≠ []) :
    recommend (some m) ps dist req k =
      .error (500, "Model prediction failed: " ++ e) := by
  have h1 : ps.isEmpty = false := by simp [List.isEmpty_iff, hps]
  have h2 : (eligRows dist req ps).isEmpty = false := by
    simp [List.isEmpty_iff, hrows]
  simp only [recommend, predictModel, h1, h2, hm, Bool.false_eq_true, if_false]

theorem recommend_ok (m : MLModel) (ps : List Dict) (dist : DistFn)
    (req : RecRequest) (k : ℤ) (hm : m.raises = none) (hps : ps ≠ [])
    (hrows : eligRows dist req ps ≠ []) :
    recommend (some m) ps dist req k =
      .ok { user_lat := req.user_lat, user_lng := req.user_lng,
            time_of_day := req.time_of_day,
            recommendations := pySliceTo (sortedScored m ps dist req) k } := by
  have h1 : ps.isEmpty = false := by simp [List.isEmpty_iff, hps]
  have h2 : (eligRows dist req ps).isEmpty = false := by
    simp [List.isEmpty_iff, hrows]
  simp only [recommend, predictModel, sortedScored, h1, h2, hm,
    Bool.false_eq_true, if_false, List.map_map]

theorem recommend_ok_inv {m : MLModel} {ps : List Dict} {dist : DistFn}
    {req : RecRequest} {k : ℤ} {resp : RecResponse}
    (h : recommend (some m) ps dist req k = .ok resp) :
    m.raises = none ∧ ps ≠ [] ∧ eligRows dist req ps ≠ [] ∧
      resp = { user_lat := req.user_lat, user_lng := req.user_lng,
               time_of_day := req.time_of_day,
               recommendations := pySliceTo (sortedScored m ps dist req) k } := by
  by_cases hps : ps = []
  · subst hps; rw [recommend_no_data] at h; cases h
  by_cases hrows : eligRows dist req ps = []
  · rw [recommend_no_rows m ps dist req k hps hrows] at h; cases h
  cases hm : m.raises with
  | some e => rw [recommend_raised m ps dist req k e hm hps hrows] at h; cases h
  | none =>
      rw [recommend_ok m ps dist req k hm hps hrows] at h
      injection h with h
      exact ⟨rfl, hps, hrows, h.symm⟩

theorem sortedScored_length (m : MLModel) (ps : List Dict) (dist : DistFn)
    (req : RecRequest) :
    (sortedScored m ps dist req).length = (eligRows dist req ps).length := by
  unfold sortedScored
  rw [length_sortDesc, List.length_map, List.length_zip, List.length_map,
    List.length_map, List.length_map]
  exact min_self _

theorem pySliceTo_length_of_nonneg (l : List ScoredInfo) (k : ℤ) (hk : 0 ≤ k) :
    (pySliceTo l k).length = min k.toNat l.length := by
  unfold pySliceTo
  rw [if_pos hk, List.length_take]

theorem sortedScored_pairwise (m : MLModel) (ps : List Dict) (dist : DistFn)
    (req : RecRequest) : (sortedScored m ps dist req).Pairwise rankedBefore := by
  unfold sortedScored
  apply pairwise_sortDesc
  rw [List.pairwise_map]
  have hrows := buildRowsAux_pairwise dist req ps 0
  have hinfos : ((eligRows dist req ps).map (fun r => r.2)).Pairwise
      (fun a b => a.index < b.index) := by
    rw [List.pairwise_map]
    exact hrows
  exact pairwise_zip_left _ _ hinfos

theorem recommend_fails_iff (mo : Option MLModel) (ps : List Dict) (dist : DistFn)
    (req : RecRequest) (k : ℤ) :
    (∃ e, recommend mo ps dist req k = .error e) ↔
      (mo = none ∨ ps = [] ∨ eligRows dist req ps = [] ∨
        ∃ m e, mo = some m ∧ m.raises = some e) := by
  cases mo with
  | none => simp [recommend_model_none]
  | some m =>
      by_cases hps : ps = []
      · subst hps
        simp [recommend_no_data]
      by_cases hrows : eligRows dist req ps = []
      · simp only [hrows, hps]
        constructor
        · intro _; tauto
        · intro _; exact ⟨_, recommend_no_rows m ps dist req k hps hrows⟩
      cases hm : m.raises with
      | some e =>
          constructor
          · intro _
            exact Or.inr (Or.inr (Or.inr ⟨m, e, rfl, hm⟩))
          · intro _
            exact ⟨_, recommend_raised m ps dist req k e hm hps hrows⟩
      | none =>
          rw [recommend_ok m ps dist req k hm hps hrows]
          constructor
          · rintro ⟨e, he⟩; cases he
          · rintro (h | h | h | ⟨m2, e2, hm2, hr2⟩)
            · cases h
            · exact absurd h hps
            · exact absurd h hrows
            · cases hm2
              rw [hm] at hr2
              cases hr2

/-! ### Helper lemmas: nonnegativity of extracted rates -/

theorem readNum_nonneg (cs : List Char) : 0 ≤ readNum cs := by
  unfold readNum
  dsimp only
  split
  · split
    · positivity
    · positivity
  · positivity

theorem extractNum_getD_nonneg (cs : List Char) : 0 ≤ (extractNum cs).getD 0 := by
  induction cs with
  | nil => norm_num [extractNum]
  | cons c rest ih =>
      unfold extractNum
      split
      · simpa using readNum_nonneg (c :: rest)
      · exact ih

/-! ### Helper lemmas: the haversine intermediate value lies in [0, 1] -/

theorem hav_core (x y d : ℝ) :
    0 ≤ Real.sin ((y - x) / 2) ^ 2 +
        Real.cos x * Real.cos y * Real.sin d ^ 2 ∧
      Real.sin ((y - x) / 2) ^ 2 +
        Real.cos x * Real.cos y * Real.sin d ^ 2 ≤ 1 := by
  have e1 : Real.cos ((x + y) / 2) ^ 2 = 1 / 2 + Real.cos (x + y) / 2 := by
    rw [Real.cos_sq, show 2 * ((x + y) / 2) = x + y by ring]
  have e2 : Real.sin ((y - x) / 2) ^ 2 = 1 / 2 - Real.cos (y - x) / 2 := by
    rw [Real.sin_sq, Real.cos_sq, show 2 * ((y - x) / 2) = y - x by ring]
    ring
  have key : Real.sin ((y - x) / 2) ^ 2 + Real.cos x * Real.cos y =
      Real.cos ((x + y) / 2) ^ 2 := by
    rw [e1, e2, Real.cos_add, Real.cos_sub]
    ring
  have hA0 : (0 : ℝ) ≤ Real.sin ((y - x) / 2) ^ 2 := sq_nonneg _
  have hA1 : Real.sin ((y - x) / 2) ^ 2 ≤ 1 := Real.sin_sq_le_one _
  have hW0 : (0 : ℝ) ≤ Real.cos ((x + y) / 2) ^ 2 := sq_nonneg _
  have hW1 : Real.cos ((x + y) / 2) ^ 2 ≤ 1 := Real.cos_sq_le_one _
  have hS0 : (0 : ℝ) ≤ Real.sin d ^ 2 := sq_nonneg _
  have hS1 : Real.sin d ^ 2 ≤ 1 := Real.sin_sq_le_one _
  have hc : Real.cos x * Real.cos y =
      Real.cos ((x + y) / 2) ^ 2 - Real.sin ((y - x) / 2) ^ 2 := by linarith
  constructor
  · nlinarith [mul_nonneg hA0 (by linarith : (0 : ℝ) ≤ 1 - Real.sin d ^ 2),
      mul_nonneg hW0 hS0]
  · nlinarith [mul_nonneg (by linarith : (0 : ℝ) ≤ 1 - Real.sin ((y - x) / 2) ^ 2)
      (by linarith : (0 : ℝ) ≤ 1 - Real.sin d ^ 2),
      mul_nonneg (by linarith : (0 : ℝ) ≤ 1 - Real.cos ((x + y) / 2) ^ 2) hS0]

theorem hav_a_mem (lat1 lon1 lat2 lon2 : ℝ) :
    0 ≤ hav_a lat1 lon1 lat2 lon2 ∧ hav_a lat1 lon1 lat2 lon2 ≤ 1 := by
  unfold hav_a
  exact hav_core (deg2rad lat1) (deg2rad lat2)
    ((deg2rad lon2 - deg2rad lon1) / 2)

/-! ### Claim theorems -/

/-- Claim C1: for every opening text, closing text and hour in [0,23],
`compute_open_now` follows the 5-step precedence of §4.3 exactly (stated
as agreement with `is_open_now_spec`, the word-for-word transcription of
the spec's 5 steps), and the four quoted examples evaluate as the spec
says: `24/7` data is open, 7AM–10PM is closed at 23, the overnight 8PM–4AM
window is open at 1, and unparsable data defaults to open. -/
theorem spark_C1 :
    (∀ (op cl : String) (h : ℤ), 0 ≤ h → h ≤ 23 →
        compute_open_now (.vStr op) (.vStr cl) h =
          if is_open_now_spec op cl h then 1 else 0)
    ∧ compute_open_now (.vStr "24/7") (.vStr "24/7") 3 = 1
    ∧ compute_open_now (.vStr "7:00 AM") (.vStr "10:00 PM") 23 = 0
    ∧ compute_open_now (.vStr "8:00 PM") (.vStr "4:00 AM") 1 = 1
    ∧ compute_open_now (.vStr "garbage") (.vStr "also garbage") 12 = 1 := by
  refine ⟨?_, by decide, by decide, by decide, by decide⟩
  intro op cl h hh0 hh23
  simp only [compute_open_now, is_open_now_spec, is24_7]
  by_cases hA : strContains (strUpper op) "24/7" = true
  · simp [hA]
  · by_cases hB : strContains (strUpper cl) "24/7" = true
    · simp [hA, hB]
    · simp only [Bool.not_eq_true] at hA hB
      simp only [hA, hB, Bool.or_self, Bool.false_eq_true, if_false]
      cases hpo : parse_hour_from_str (.vStr op) with
      | none => simp
      | some oh =>
          cases hpc : parse_hour_from_str (.vStr cl) with
          | none => simp
          | some ch =>
              by_cases he : oh = ch
              · simp [he]
              · by_cases hlt : oh < ch
                · by_cases hin : (oh : ℤ) ≤ h ∧ h < (ch : ℤ) <;>
                    simp [he, hlt, hin]
                · by_cases hin : (oh : ℤ) ≤ h ∨ h < (ch : ℤ) <;>
                    simp [he, hlt, hin]

/-- Closed instance discharging the hour-range hypotheses of `spark_C1`. -/
theorem spark_C1_witness :
    ((0 : ℤ) ≤ 9 ∧ (9 : ℤ) ≤ 23) ∧
      compute_open_now (.vStr "6:00 AM") (.vStr "5:00 PM") 9 =
        if is_open_now_spec "6:00 AM" "5:00 PM" 9 then 1 else 0 :=
  ⟨⟨by decide, by decide⟩, spark_C1.1 "6:00 AM" "5:00 PM" 9 (by decide) (by decide)⟩

/-- Claim C5: `yn_to_int` always yields 0 or 1; a string is stripped and
upper-cased, a leading Y gives 1, a leading N gives 0, any other string
gives 0; a numeric gives 1 exactly when truthy (`int(bool(v))`); `None`
gives 0; and the five quoted examples hold. -/
theorem spark_C5 :
    (∀ v, yn_to_int v = 0 ∨ yn_to_int v = 1)
    ∧ (∀ s, strStartsWith (strUpper (pyStrip s)) "Y" = true →
        yn_to_int (.vStr s) = 1)
    ∧ (∀ s, strStartsWith (strUpper (pyStrip s)) "Y" = false →
        strStartsWith (strUpper (pyStrip s)) "N" = true →
        yn_to_int (.vStr s) = 0)
    ∧ (∀ s, strStartsWith (strUpper (pyStrip s)) "Y" = false →
        strStartsWith (strUpper (pyStrip s)) "N" = false →
        yn_to_int (.vStr s) = 0)
    ∧ (∀ n : ℤ, yn_to_int (.vInt n) = if n = 0 then 0 else 1)
    ∧ (∀ f, yn_to_int (.vFloat f) = if pyTruthyFloat f then 1 else 0)
    ∧ yn_to_int .vNone = 0
    ∧ yn_to_int (.vStr "Yes") = 1 ∧ yn_to_int (.vStr "no") = 0
    ∧ yn_to_int (.vStr "") = 0 ∧ yn_to_int (.vInt 1) = 1 := by
  refine ⟨?_, ?_, ?_, ?_, fun n => rfl, fun f => rfl, rfl,
    by decide, by decide, by decide, by decide⟩
  · intro v
    cases v with
    | vNone => exact Or.inl rfl
    | vInt n =>
        by_cases hn : n = 0 <;> simp [yn_to_int, hn]
    | vFloat f =>
        by_cases hf : pyTruthyFloat f = true <;> simp [yn_to_int, hf]
    | vStr s =>
        by_cases h1 : strStartsWith (strUpper (pyStrip s)) "Y" = true
        · simp [yn_to_int, h1]
        · by_cases h2 : strStartsWith (strUpper (pyStrip s)) "N" = true <;>
            simp [yn_to_int, h1, h2]
  · intro s h1; simp [yn_to_int, h1]
  · intro s h1 h2; simp [yn_to_int, h1, h2]
  · intro s h1 h2; simp [yn_to_int, h1, h2]

/-- Closed instance discharging the leading-Y hypothesis of `spark_C5`. -/
theorem spark_C5_witness :
    strStartsWith (strUpper (pyStrip " yeah ")) "Y" = true ∧
      yn_to_int (.vStr " yeah ") = 1 :=
  ⟨by decide, spark_C5.2.1 " yeah " (by decide)⟩

/-- Claim C6, counterexample: the claim promises a result `≥ 0.0` for
every input, but a negative numeric input is returned as-is, so
`rate_to_float` on the integer `-5` is negative. -/
theorem spark_C6_cex : ¬ (0 ≤ rate_to_float (.vInt (-5))) := by decide

/-- Claim C6, amended: `rate_to_float` returns a numeric non-NaN input
as-is (so a negative number stays negative); every string input yields the
first decimal-or-integer substring (after stripping commas) and is
therefore `≥ 0.0`; NaN and absent inputs give 0.0; and the three quoted
examples hold. -/
theorem spark_C6 :
    (∀ n : ℤ, rate_to_float (.vInt n) = (n : ℚ))
    ∧ (∀ q : ℚ, rate_to_float (.vFloat (.val q)) = q)
    ∧ rate_to_float (.vFloat .nan) = 0
    ∧ rate_to_float .vNone = 0
    ∧ (∀ s, rate_to_float (.vStr s) = (extractNum (stripCommas s)).getD 0)
    ∧ (∀ s, 0 ≤ rate_to_float (.vStr s))
    ∧ rate_to_float (.vStr "PHP 20.00") = 20
    ∧ rate_to_float (.vStr "") = 0
    ∧ rate_to_float (.vInt 15) = 15 := by
  have hs : ∀ s, rate_to_float (.vStr s) = (extractNum (stripCommas s)).getD 0 := by
    intro s
    simp only [rate_to_float]
    cases hx : extractNum (stripCommas s) <;> simp [hx]
  refine ⟨fun n => rfl, fun q => rfl, rfl, rfl, hs, ?_, ?_, by decide, rfl⟩
  · intro s
    rw [hs s]
    exact extractNum_getD_nonneg _
  · rw [hs]
    have hex : extractNum (stripCommas "PHP 20.00") =
        some ((digitsToNat ['2', '0'] : ℚ) +
          (digitsToNat ['0', '0'] : ℚ) / ((10 : ℚ) ^ (2 : ℕ))) := rfl
    rw [hex, Option.getD_some,
      show digitsToNat ['2', '0'] = 20 from rfl,
      show digitsToNat ['0', '0'] = 0 from rfl]
    norm_num

/-- Claim C9: a float NaN (pandas' encoding of a blank spreadsheet cell)
is truthy, so `yn_to_int` maps it to 1, while an absent (`None`) value
maps to 0; consequently a catalog record whose CCTV cell is NaN gets
amenity bit 1 in the built pipeline row. -/
theorem spark_C9 :
    yn_to_int (.vFloat .nan) = 1 ∧ yn_to_int .vNone = 0 ∧
      (eligRows dist0 req0 [pNaN]).map (fun r => r.2.cctvs) = [1] := by
  refine ⟨rfl, rfl, by decide⟩

/-- Claim C7: for all (finite real) inputs, the haversine intermediate
value `a` lies in `[0, 1]`, so the `asin` argument `sqrt a` lies in its
domain `[-1, 1]` and the computation never raises, and the returned
distance is nonnegative (finiteness is inherent to the real-valued model). -/
theorem spark_C7 : ∀ lat1 lon1 lat2 lon2 : ℝ,
    0 ≤ hav_a lat1 lon1 lat2 lon2 ∧ hav_a lat1 lon1 lat2 lon2 ≤ 1 ∧
      Real.sqrt (hav_a lat1 lon1 lat2 lon2) ≤ 1 ∧
      -1 ≤ Real.sqrt (hav_a lat1 lon1 lat2 lon2) ∧
      0 ≤ haversine_km lat1 lon1 lat2 lon2 := by
  intro a b c d
  obtain ⟨h0, h1⟩ := hav_a_mem a b c d
  refine ⟨h0, h1, Real.sqrt_le_one.mpr h1,
    le_trans (by norm_num) (Real.sqrt_nonneg _), ?_⟩
  unfold haversine_km
  have harc : 0 ≤ Real.arcsin (Real.sqrt (hav_a a b c d)) :=
    Real.arcsin_nonneg.mpr (Real.sqrt_nonneg _)
  have h2 : (0 : ℝ) ≤ 2 * Real.arcsin (Real.sqrt (hav_a a b c d)) := by linarith
  have h6371 : (0 : ℝ) ≤ 6371.0 := by norm_num
  exact mul_nonneg h6371 h2

/-- Claim C8: `haversine_km` is symmetric in its two coordinate pairs and
is zero on identical pairs; in the exact real model the equalities are
exact, hence hold a fortiori within the 1e-6 km tolerance the spec
quotes. -/
theorem spark_C8 : ∀ lat1 lon1 lat2 lon2 : ℝ,
    haversine_km lat1 lon1 lat2 lon2 = haversine_km lat2 lon2 lat1 lon1 ∧
    haversine_km lat1 lon1 lat1 lon1 = 0 ∧
    |haversine_km lat1 lon1 lat2 lon2 - haversine_km lat2 lon2 lat1 lon1| ≤
      1 / 1000000 ∧
    |haversine_km lat1 lon1 lat1 lon1| ≤ 1 / 1000000 := by
  have key : ∀ u v : ℝ, Real.sin ((u - v) / 2) ^ 2 = Real.sin ((v - u) / 2) ^ 2 := by
    intro u v
    rw [show (u - v) / 2 = -((v - u) / 2) by ring, Real.sin_neg]
    ring
  have hcomm : ∀ a b c d : ℝ, hav_a a b c d = hav_a c d a b := by
    intro a b c d
    unfold hav_a
    rw [key (deg2rad c) (deg2rad a), key (deg2rad d) (deg2rad b)]
    ring
  have hself : ∀ a b : ℝ, hav_a a b a b = 0 := by
    intro a b
    unfold hav_a
    simp [sub_self, zero_div, Real.sin_zero]
  intro a b c d
  have h1 : haversine_km a b c d = haversine_km c d a b := by
    unfold haversine_km
    rw [hcomm]
  have h2 : haversine_km a b a b = 0 := by
    unfold haversine_km
    rw [hself, Real.sqrt_zero, Real.arcsin_zero]
    ring
  refine ⟨h1, h2, ?_, ?_⟩
  · rw [h1, sub_self, abs_zero]
    norm_num
  · rw [h2, abs_zero]
    norm_num

/-- Claim C2: whenever `recommend` returns a result list, that list is
sorted by score descending with ties in original catalog order (the
`rankedBefore` pairwise invariant over the stored catalog index), and its
length is `min top_k (number of eligible scored records)`; moreover with
`top_k = 100` on a catalog producing exactly 3 eligible rows the call
succeeds with exactly 3 results — no padding, no error. -/
theorem spark_C2 :
    (∀ (m : MLModel) (ps : List Dict) (dist : DistFn) (req : RecRequest)
        (k : ℤ) (resp : RecResponse), 0 < k →
        recommend (some m) ps dist req k = .ok resp →
        resp.recommendations.Pairwise rankedBefore ∧
        resp.recommendations.length = min k.toNat (eligRows dist req ps).length)
    ∧ (∀ (m : MLModel) (ps : List Dict) (dist : DistFn) (req : RecRequest),
        m.raises = none → (eligRows dist req ps).length = 3 →
        ∃ resp, recommend (some m) ps dist req 100 = .ok resp ∧
          resp.recommendations.length = 3) := by
  constructor
  · intro m ps dist req k resp hk h
    obtain ⟨hm, hps, hrows, rfl⟩ := recommend_ok_inv h
    constructor
    · have hp := sortedScored_pairwise m ps dist req
      show (pySliceTo (sortedScored m ps dist req) k).Pairwise rankedBefore
      unfold pySliceTo
      split
      · exact hp.sublist (List.take_sublist _ _)
      · exact hp.sublist (List.take_sublist _ _)
    · show (pySliceTo (sortedScored m ps dist req) k).length = _
      rw [pySliceTo_length_of_nonneg _ _ (le_of_lt hk), sortedScored_length]
  · intro m ps dist req hm h3
    have hrows : eligRows dist req ps ≠ [] := by
      intro h
      rw [h] at h3
      simp at h3
    have hps : ps ≠ [] := by
      intro h
      subst h
      simp [eligRows, buildRowsAux] at h3
    refine ⟨_, recommend_ok m ps dist req 100 hm hps hrows, ?_⟩
    show (pySliceTo (sortedScored m ps dist req) 100).length = 3
    rw [pySliceTo_length_of_nonneg _ _ (by norm_num), sortedScored_length, h3]
    rfl

/-- Closed instance discharging the hypotheses of `spark_C2` on a concrete
3-facility catalog. -/
theorem spark_C2_witness :
    (m0.raises = none ∧ (eligRows dist0 req0 parkings0).length = 3) ∧
      ∃ resp, recommend (some m0) parkings0 dist0 req0 100 = .ok resp ∧
        resp.recommendations.length = 3 :=
  ⟨⟨rfl, by decide⟩, spark_C2.2 m0 parkings0 dist0 req0 rfl (by decide)⟩

/-- Claim C3: every feature row emitted by the per-request loop has
exactly 7 entries, in the fixed order distance, open-now, CCTV, guards,
initial rate, PWD discount, street parking, each computed by the matching
normalizer on the matching raw field — whatever fields the record is
missing. -/
theorem spark_C3 : ∀ (dist : DistFn) (req : RecRequest) (ps : List Dict)
    (r : List ℚ × RecInfo), r ∈ eligRows dist req ps →
    r.1.length = 7 ∧
    ∃ p, p ∈ ps ∧ ∃ la ln, coordsOf p = some (la, ln) ∧
      r.1 = [ dist (.val req.user_lat) (.val req.user_lng) la ln,
              ((compute_open_now (rawOpening p) (rawClosing p) req.time_of_day : ℤ) : ℚ),
              ((yn_to_int (rawCctvs p) : ℤ) : ℚ),
              ((yn_to_int (rawGuards p) : ℤ) : ℚ),
              rate_to_float (rawRate p),
              ((discount_to_int (rawDiscount p) : ℤ) : ℚ),
              ((yn_to_int (rawStreet p) : ℤ) : ℚ) ] := by
  intro dist req ps r hr
  obtain ⟨p, hp, la, ln, hc, hrow⟩ := buildRowsAux_shape dist req ps 0 r hr
  refine ⟨by rw [hrow]; rfl, p, hp, la, ln, hc, by rw [hrow]; rfl⟩

/-- Closed instance discharging the membership hypothesis of `spark_C3`. -/
theorem spark_C3_witness :
    ((featureRow dist0 req0 (.val 0) (.val 0) p0,
        infoOf dist0 req0 0 (.val 0) (.val 0) p0) ∈ eligRows dist0 req0 parkings0) ∧
      (featureRow dist0 req0 (.val 0) (.val 0) p0,
        infoOf dist0 req0 0 (.val 0) (.val 0) p0).1.length = 7 :=
  ⟨by decide, (spark_C3 dist0 req0 parkings0 _ (by decide)).1⟩

/-- Claim C4: `recommend` fails exactly when the model is unavailable, the
catalog is empty, every record was excluded during feature building, or
the scoring call raised; every failure carries HTTP status 500 and the
raised cause is embedded verbatim in the surfaced message; and two
catalogs whose records have identical coordinate fields (however their
other — possibly malformed — fields differ) fail or succeed identically,
so malformed field data never causes a failure.  A failing result is an
`Except.error` carrying no recommendation list, so no partial results can
accompany a failure. -/
theorem spark_C4 : ∀ (mo : Option MLModel) (ps : List Dict) (dist : DistFn)
    (req : RecRequest) (k : ℤ),
    ((∃ e, recommend mo ps dist req k = .error e) ↔
      (mo = none ∨ ps = [] ∨ eligRows dist req ps = [] ∨
        ∃ m e, mo = some m ∧ m.raises = some e))
    ∧ (∀ c msg, recommend mo ps dist req k = .error (c, msg) → c = 500)
    ∧ (∀ m e, mo = some m → m.raises = some e → ps ≠ [] →
        eligRows dist req ps ≠ [] →
        recommend mo ps dist req k = .error (500, "Model prediction failed: " ++ e))
    ∧ (∀ qs, List.Forall₂ (fun p q => coordsOf p = coordsOf q) ps qs →
        ((∃ e, recommend mo ps dist req k = .error e) ↔
          (∃ e, recommend mo qs dist req k = .error e))) := by
  intro mo ps dist req k
  refine ⟨recommend_fails_iff mo ps dist req k, ?_, ?_, ?_⟩
  · intro c msg h
    cases mo with
    | none =>
        rw [recommend_model_none] at h
        simp only [Except.error.injEq, Prod.mk.injEq] at h
        exact h.1.symm
    | some m =>
        by_cases hps : ps = []
        · subst hps
          rw [recommend_no_data] at h
          simp only [Except.error.injEq, Prod.mk.injEq] at h
          exact h.1.symm
        by_cases hrows : eligRows dist req ps = []
        · rw [recommend_no_rows m ps dist req k hps hrows] at h
          simp only [Except.error.injEq, Prod.mk.injEq] at h
          exact h.1.symm
        cases hm : m.raises with
        | some e =>
            rw [recommend_raised m ps dist req k e hm hps hrows] at h
            simp only [Except.error.injEq, Prod.mk.injEq] at h
            exact h.1.symm
        | none =>
            rw [recommend_ok m ps dist req k hm hps hrows] at h
            cases h
  · intro m e hmo hm hps hrows
    subst hmo
    exact recommend_raised m ps dist req k e hm hps hrows
  · intro qs hf
    rw [recommend_fails_iff mo ps dist req k, recommend_fails_iff mo qs dist req k]
    have hlen : ps.length = qs.length := hf.length_eq
    have h1 : (ps = []) ↔ (qs = []) := by
      constructor
      · intro h
        exact List.length_eq_zero.mp (by rw [← hlen, h]; rfl)
      · intro h
        exact List.length_eq_zero.mp (by rw [hlen, h]; rfl)
    have h2 : (eligRows dist req ps = []) ↔ (eligRows dist req qs = []) := by
      have hcong := buildRowsAux_length_congr dist req hf 0 0
      constructor
      · intro h
        apply List.length_eq_zero.mp
        rw [eligRows] at h ⊢
        rw [← hcong, h]
        rfl
      · intro h
        apply List.length_eq_zero.mp
        rw [eligRows] at h ⊢
        rw [hcong, h]
        rfl
    rw [h1, h2]

/-- Closed instance discharging the hypotheses of `spark_C4`: a raising
model surfaces the cause in a 500 error. -/
theorem spark_C4_witness :
    (mRaise.raises = some "boom" ∧ parkings0 ≠ [] ∧
        eligRows dist0 req0 parkings0 ≠ []) ∧
      recommend (some mRaise) parkings0 dist0 req0 5 =
        .error (500, "Model prediction failed: boom") :=
  ⟨⟨rfl, by decide, by decide⟩,
    (spark_C4 (some mRaise) parkings0 dist0 req0 5).2.2.1 mRaise "boom" rfl rfl
      (by decide) (by decide)⟩

/-- Claim C10: `recommend` never validates `top_k`: under the conditions
where a request succeeds it succeeds for every integer `top_k`; `top_k = 0`
yields an empty recommendation list, and a negative `top_k` yields the
sorted list with its last `|top_k|` entries dropped — the Python slice
`results[:top_k]` semantics. -/
theorem spark_C10 : ∀ (m : MLModel) (ps : List Dict) (dist : DistFn)
    (req : RecRequest),
    m.raises = none → ps ≠ [] → eligRows dist req ps ≠ [] →
    (∀ k : ℤ, ∃ resp, recommend (some m) ps dist req k = .ok resp ∧
        resp.recommendations = pySliceTo (sortedScored m ps dist req) k)
    ∧ (∃ resp, recommend (some m) ps dist req 0 = .ok resp ∧
        resp.recommendations = [])
    ∧ (∀ k : ℤ, k < 0 → ∃ resp, recommend (some m) ps dist req k = .ok resp ∧
        resp.recommendations =
          (sortedScored m ps dist req).take
            ((sortedScored m ps dist req).length - (-k).toNat)) := by
  intro m ps dist req hm hps hrows
  refine ⟨fun k => ⟨_, recommend_ok m ps dist req k hm hps hrows, rfl⟩,
    ⟨_, recommend_ok m ps dist req 0 hm hps hrows, rfl⟩,
    fun k hk => ⟨_, recommend_ok m ps dist req k hm hps hrows, ?_⟩⟩
  show pySliceTo (sortedScored m ps dist req) k =
    (sortedScored m ps dist req).take
      ((sortedScored m ps dist req).length - (-k).toNat)
  unfold pySliceTo
  rw [if_neg (not_le.mpr hk)]
  congr 1
  omega

/-- Closed instance discharging the hypotheses of `spark_C10`: with
`top_k = 0` the request succeeds and returns no recommendations. -/
theorem spark_C10_witness :
    (m0.raises = none ∧ parkings0 ≠ [] ∧ eligRows dist0 req0 parkings0 ≠ []) ∧
      ∃ resp, recommend (some m0) parkings0 dist0 req0 0 = .ok resp ∧
        resp.recommendations = [] :=
  ⟨⟨rfl, by decide, by decide⟩,
    (spark_C10 m0 parkings0 dist0 req0 rfl (by decide) (by decide)).2.1⟩
